import Mathlib

/-!
Shallow embedding of `src/main.py` (a GUI front-end over an external OCR
command-line engine).  Pure Python functions become Lean functions; the
filesystem is an explicit association list of file entries threaded through the
functions; the external engine, the OS path canonicalisation (`realpath ∘
normpath ∘ normcase`) and the imaging library's encoder are parameters of the
model, since their behaviour lives outside the repository.  Machine-level
details that the claims depend on (UTF-8 decoding, Python `str.splitlines` /
`str.strip` / the regex classes over the full Unicode whitespace table, PIL's
8-bit blend arithmetic) are embedded exactly.
-/

/-- `errno.ENOENT` (file does not exist). -/
def ENOENT : Nat := 2

/-- `tesseract_cmd = 'tesseract'` (line 29 of `main.py`). -/
def tesseract_cmd : String := "tesseract"

/-- `os.extsep`. -/
def extsep : String := "."

/-- Python's whitespace predicate (CPython's `_PyUnicode_IsWhitespace`), the
set used both by `str.strip()` with no arguments and by the regex classes
`\s` / `\S` on `str` patterns: 0x09-0x0D, 0x1C-0x1F, space, NEL (0x85),
NBSP (0xA0), 0x1680, 0x2000-0x200A, 0x2028, 0x2029, 0x202F, 0x205F, 0x3000. -/
def pyIsSpace (c : Char) : Bool :=
  (0x09 ≤ c.toNat && c.toNat ≤ 0x0D) ||
  (0x1C ≤ c.toNat && c.toNat ≤ 0x1F) ||
  c == ' ' || c.toNat == 0x85 || c.toNat == 0xA0 || c.toNat == 0x1680 ||
  (0x2000 ≤ c.toNat && c.toNat ≤ 0x200A) ||
  c.toNat == 0x2028 || c.toNat == 0x2029 || c.toNat == 0x202F ||
  c.toNat == 0x205F || c.toNat == 0x3000

/-- Characters that `str.splitlines` treats as line boundaries. -/
def pyIsLineBreak (c : Char) : Bool :=
  c == '\n' || c == '\r' || c == '\x0b' || c == '\x0c' ||
  c == '\x1c' || c == '\x1d' || c == '\x1e' || c == '\x85' ||
  c == (Char.ofNat 0x2028) || c == (Char.ofNat 0x2029)

/-- Worker for `pySplitlines`; `acc` holds the current line reversed. -/
def splitlinesAux (acc : List Char) : List Char → List (List Char)
  | [] => if acc.isEmpty then [] else [acc.reverse]
  | '\r' :: '\n' :: rest => acc.reverse :: splitlinesAux [] rest
  | c :: rest =>
      if pyIsLineBreak c then acc.reverse :: splitlinesAux [] rest
      else splitlinesAux (c :: acc) rest

/-- Python `str.splitlines()`. -/
def pySplitlines (s : String) : List String :=
  (splitlinesAux [] s.data).map String.mk

/-- Python `str.strip()` (over ASCII whitespace). -/
def pyStrip (s : String) : String :=
  String.mk (((s.data.dropWhile pyIsSpace).reverse.dropWhile pyIsSpace).reverse)

/-- Whether `sub` occurs as a contiguous run inside `l`. -/
def containsSeq (sub : List Char) : List Char → Bool
  | [] => sub.isEmpty
  | c :: rest => sub.isPrefixOf (c :: rest) || containsSeq sub rest

/-- A UTF-8 continuation byte. -/
def isContByte (b : Nat) : Bool := 0x80 ≤ b && b < 0xC0

/-- Strict UTF-8 decoding of a byte sequence, as Python `bytes.decode('utf-8')`:
rejects overlong forms, surrogates, and code points above `0x10FFFF`;
returns `none` exactly when Python raises `UnicodeDecodeError`. -/
def utf8Decode : List Nat → Option (List Char)
  | [] => some []
  | b :: rest =>
    if b < 0x80 then
      (utf8Decode rest).map (Char.ofNat b :: ·)
    else if b < 0xC2 then none
    else if b < 0xE0 then
      match rest with
      | c1 :: rest' =>
        if isContByte c1 then
          (utf8Decode rest').map (Char.ofNat ((b - 0xC0) * 0x40 + (c1 - 0x80)) :: ·)
        else none
      | _ => none
    else if b < 0xF0 then
      match rest with
      | c1 :: c2 :: rest' =>
        if isContByte c1 && isContByte c2 then
          let cp := (b - 0xE0) * 0x1000 + (c1 - 0x80) * 0x40 + (c2 - 0x80)
          if cp < 0x800 then none
          else if 0xD800 ≤ cp && cp < 0xE000 then none
          else (utf8Decode rest').map (Char.ofNat cp :: ·)
        else none
      | _ => none
    else if b < 0xF5 then
      match rest with
      | c1 :: c2 :: c3 :: rest' =>
        if isContByte c1 && isContByte c2 && isContByte c3 then
          let cp := (b - 0xF0) * 0x40000 + (c1 - 0x80) * 0x1000 +
                    (c2 - 0x80) * 0x40 + (c3 - 0x80)
          if cp < 0x10000 then none
          else if 0x10FFFF < cp then none
          else (utf8Decode rest').map (Char.ofNat cp :: ·)
        else none
      | _ => none
    else none

/-- The UTF-8 bytes of `hello world`. -/
def helloWorldBytes : List Nat :=
  [104, 101, 108, 108, 111, 32, 119, 111, 114, 108, 100]

/-- The UTF-8 bytes of `Error: bad image`. -/
def errBadImageBytes : List Nat :=
  [69, 114, 114, 111, 114, 58, 32, 98, 97, 100, 32, 105, 109, 97, 103, 101]

/-- The UTF-8 bytes of a no-break space (U+00A0, `C2 A0`) followed by
`Error: bad image` — a stderr line with a Unicode-whitespace boundary. -/
def nbspErrBytes : List Nat := [194, 160] ++ errBadImageBytes

/-- The Python exceptions the wrapper can raise, by kind and payload. -/
inductive PyError where
  /-- `TypeError('Unsupported image object')` from `prepare`. -/
  | typeError
  /-- `TesseractNotFoundError` with its message. -/
  | notFound (msg : String)
  /-- `TesseractError(status, message)`. -/
  | tesseractError (status : Int) (msg : String)
  /-- A raw `OSError` identified by its `errno`. -/
  | osError (errno : Nat)
  /-- `FileNotFoundError` from `open(filename, 'rb')`. -/
  | fileNotFound (name : String)
  /-- `UnicodeDecodeError` from `bytes.decode('utf-8')`. -/
  | unicodeDecodeError
deriving DecidableEq

/-- `get_errors` (lines 58-61): decode stderr as UTF-8, join its lines with
single spaces, and strip surrounding whitespace; a decode failure raises. -/
def get_errors (error_string : List Nat) : Except PyError String :=
  match utf8Decode error_string with
  | none => .error .unicodeDecodeError
  | some cs => .ok (pyStrip (String.intercalate " " (pySplitlines (String.mk cs))))

/-- The message built by `TesseractNotFoundError.__init__` (lines 39-44). -/
def tesseract_not_found_msg : String :=
  tesseract_cmd ++ " is not installed or it's not in your PATH." ++
  " See README file for more information."

/-!  PIL image model.  An image is its dimensions, whether its band list
contains the alpha band `'A'`, its pixel data (a band of a pixel, addressed as
`px x y band`, each sample an 8-bit value), and the declared source format
(`None` or a string, Python-falsy when `None` or empty). -/

/-- An in-memory decoded bitmap, as far as `prepare` observes one. -/
structure PILImage where
  width : Nat
  height : Nat
  /-- Whether `'A' in image.getbands()`. -/
  hasAlpha : Bool
  /-- `px x y b` is the 8-bit sample of band `b` (one of R, G, B, A) at `(x, y)`. -/
  px : Nat → Nat → Char → Nat
  /-- The `image.format` attribute. -/
  format : Option String

/-- PIL's `MULDIV255(a, b, tmp)` macro: `tmp = a*b + 128; ((tmp >> 8) + tmp) >> 8`,
the 8-bit approximation of `a*b/255` used by `Image.paste` blending. -/
def pilMulDiv255 (a b : Nat) : Nat :=
  let tmp := a * b + 128
  (tmp / 256 + tmp) / 256

/-- PIL's `BLEND(mask, in1, in2)`: `in1` weighted by `255 - mask` plus `in2`
weighted by `mask` (the pasted image is `in2`, the background is `in1`). -/
def pilBlend (mask in1 in2 : Nat) : Nat :=
  pilMulDiv255 in1 (255 - mask) + pilMulDiv255 in2 mask

/-- Lines 80-82 of `prepare`: `Image.new('RGB', image.size, (255, 255, 255))`
followed by `background.paste(image, (0, 0), image.getchannel('A'))`.
The result is an RGB image (no alpha band) of the same dimensions whose
samples are the source blended over the white canvas under the alpha mask;
`Image.new` leaves `format` unset. -/
def compositeOverWhite (image : PILImage) : PILImage :=
  { width := image.width
    height := image.height
    hasAlpha := false
    px := fun x y b => pilBlend (image.px x y 'A') 255 (image.px x y b)
    format := none }

/-- The argument of `prepare`: either an actual `Image.Image` instance or a
value of any other type (which fails the `isinstance` check). -/
inductive PrepInput where
  | image (i : PILImage)
  | notImage

/-- What `prepare` produces: the returned image, the extension tag, and the
state of the caller's original image object after the call (Python mutates it
in place in the no-alpha branch). -/
structure PrepOut where
  result : PILImage
  ext : String
  callerAfter : PILImage

/-- Python truthiness of `image.format` (`None` and `''` are falsy). -/
def pyFalsyFmt : Option String → Bool
  | none => true
  | some s => s == ""

/-- `prepare` (lines 73-85): reject non-images; derive the extension tag
(`'PNG'` when `image.format` is falsy, else the declared format); if the image
has an alpha band, composite it over opaque white into a fresh RGB image and
rebind `image` to it; finally set `image.format` on whichever object `image`
now names and return it with the tag. -/
def prepare : PrepInput → Except PyError PrepOut
  | .notImage => .error .typeError
  | .image i =>
    let extension := if pyFalsyFmt i.format then "PNG" else i.format.getD ""
    if i.hasAlpha then
      let background := compositeOverWhite i
      .ok { result := { background with format := some extension }
            ext := extension
            callerAfter := i }
    else
      let mutated := { i with format := some extension }
      .ok { result := mutated, ext := extension, callerAfter := mutated }

/-!  Filesystem model.  A file entry is a name, its byte content, and the
outcome `os.remove` would have on it: `none` means removal succeeds, `some e`
means removal raises `OSError` with `errno = e` (for example `EACCES`, or
`ENOENT` when the directory entry is stale).  `glob.iglob(temp_name + '*')`
is modelled as matching exactly the entries whose name starts with
`temp_name`, which is what it returns for the `tess_…` names the wrapper
generates (they contain no glob metacharacters). -/

/-- One file on disk. -/
structure FileEntry where
  name : String
  content : List Nat
  /-- `none` when `os.remove` succeeds on this entry; `some e` when it raises
  `OSError(errno=e)`. -/
  removeErr : Option Nat
deriving DecidableEq

/-- The filesystem: a list of file entries with distinct roles per name
(writes replace any existing entry of the same name). -/
abbrev FS := List FileEntry

/-- Reading a file's bytes: the content of the entry carrying that name. -/
def lookupFS (fs : FS) (n : String) : Option (List Nat) :=
  match fs with
  | [] => none
  | f :: rest => if f.name = n then some f.content else lookupFS rest n

/-- Writing a file: replace any entry of the same name by a fresh, normally
removable entry with the given content. -/
def writeFile (fs : FS) (n : String) (c : List Nat) : FS :=
  match fs with
  | [] => [⟨n, c, none⟩]
  | f :: rest => if f.name = n then ⟨n, c, none⟩ :: rest else f :: writeFile rest n c

/-- Writing a batch of files in order (the files the child process creates). -/
def writeAll (fs : FS) : List (String × List Nat) → FS
  | [] => fs
  | (n, c) :: ws => writeAll (writeFile fs n c) ws

/-- Whether a file name matches the glob pattern `t + '*'`. -/
def globStar (t : String) (n : String) : Bool :=
  t.data.isPrefixOf n.data

/-- The loop body of `cleanup`: walk the directory in order, removing every
entry matching the glob; a removal failing with `ENOENT` is swallowed (the
entry was already gone), any other `OSError` is re-raised at once, leaving the
failing entry and everything after it untouched. -/
def removeMatching (t : String) : FS → Option Nat × FS
  | [] => (none, [])
  | f :: rest =>
    if globStar t f.name then
      match f.removeErr with
      | none => removeMatching t rest
      | some e =>
        if e = ENOENT then removeMatching t rest
        else (some e, f :: rest)
    else
      let (r, fs') := removeMatching t rest
      (r, f :: fs')

/-- `cleanup` (lines 64-70): glob `temp_name + '*'` when `temp_name` is truthy
(globbing the empty string matches nothing) and remove every match, swallowing
only `ENOENT`.  Returns the propagated errno, if any, and the resulting
filesystem. -/
def cleanup (temp_name : String) (fs : FS) : Option Nat × FS :=
  if temp_name = "" then (none, fs) else removeMatching temp_name fs

/-!  Engine model.  `subprocess.Popen` either raises an `OSError` (errno) or
runs the child to completion; a completed child has an exit status, bytes on
standard error (captured by `proc.communicate()`), and a set of files it wrote
to disk.  The engine's behaviour is a parameter: a function from the command
line to one of these outcomes. -/

/-- Outcome of launching the child process with a given command line. -/
inductive LaunchResult where
  /-- `Popen` raised `OSError(errno=e)`. -/
  | osErr (errno : Nat)
  /-- The child ran: exit status, stderr bytes, files written to disk. -/
  | ran (status : Int) (stderrBytes : List Nat) (written : List (String × List Nat))

/-- The external engine as an oracle from command line to behaviour. -/
def Engine := List String → LaunchResult

/-- The command-line construction of `run_tesseract` (lines 122-130):
`cmd_args = []`, extended by the triple `(tesseract_cmd, input, output_base)`,
then by `('-l', lang)` if `lang is not None`, then by `extension` if
`extension` is truthy (non-empty). -/
def build_cmd_args (input_filename output_filename_base extension : String)
    (lang : Option String) : List String :=
  let cmd_args : List String := []
  let cmd_args := cmd_args ++ [tesseract_cmd, input_filename, output_filename_base]
  let cmd_args :=
    match lang with
    | some l => cmd_args ++ ["-l", l]
    | none => cmd_args
  if extension ≠ "" then cmd_args ++ [extension] else cmd_args

/-- `run_tesseract` (lines 122-141): build the command line and launch the
child.  A launch `OSError` other than `ENOENT` is re-raised as is; `ENOENT`
becomes `TesseractNotFoundError`.  Otherwise the child's file writes land on
disk, and a truthy (non-zero) exit status raises
`TesseractError(returncode, get_errors(stderr))`. -/
def run_tesseract (eng : Engine) (input_filename output_filename_base extension : String)
    (lang : Option String) (fs : FS) : Except PyError Unit × FS :=
  match eng (build_cmd_args input_filename output_filename_base extension lang) with
  | .osErr e =>
    if e ≠ ENOENT then (.error (.osError e), fs)
    else (.error (.notFound tesseract_not_found_msg), fs)
  | .ran status errB written =>
    let fs2 := writeAll fs written
    if status ≠ 0 then
      match get_errors errB with
      | .error pe => (.error pe, fs2)
      | .ok msg => (.error (.tesseractError status msg), fs2)
    else (.ok (), fs2)

/-- Reading the engine's declared output file (lines 153-155):
`open(output_base + extsep + extension, 'rb').read().decode('utf-8')`.
A missing file raises `FileNotFoundError`; invalid UTF-8 raises
`UnicodeDecodeError`. -/
def read_output (output_filename_base extension : String) (fs : FS) :
    Except PyError String :=
  let filename := output_filename_base ++ extsep ++ extension
  match lookupFS fs filename with
  | none => .error (.fileNotFound filename)
  | some bytes =>
    match utf8Decode bytes with
    | none => .error .unicodeDecodeError
    | some cs => .ok (String.mk cs)

/-- The `image` argument of `save` / `run_and_get_output`: a file-path string,
or a value handed to `prepare`. -/
inductive SaveInput where
  | pathStr (s : String)
  | obj (p : PrepInput)

/-- `run_and_get_output` (lines 144-155) together with the `save` context
manager (lines 88-100).  `NamedTemporaryFile(prefix='tess_', delete=False)`
creates the (empty) file `temp_name`; its fresh name is a parameter of the
model.  A string image is canonicalised by `canon` (the OS's
`realpath(normpath(normcase(.)))`) and used as the input path directly; a
decoded image is run through `prepare` and persisted as
`temp_name + extsep + ext` with bytes chosen by the imaging library's encoder
`encodeImg`.  The body invokes the engine and reads back the output file; the
`finally` clause runs `cleanup(temp_name)` on every path, and an error raised
by `cleanup` replaces the body's outcome (Python `finally` semantics). -/
def request_body (eng : Engine) (canon : String → String)
    (encodeImg : PILImage → List Nat) (temp_name : String) (image : SaveInput)
    (extension : String) (lang : Option String) (fs1 : FS) :
    Except PyError String × FS :=
  match image with
  | .pathStr s =>
    let input_filename := canon s
    match run_tesseract eng input_filename temp_name extension lang fs1 with
    | (.error e, fs2) => (.error e, fs2)
    | (.ok _, fs2) => (read_output temp_name extension fs2, fs2)
  | .obj p =>
    match prepare p with
    | .error e => (.error e, fs1)
    | .ok pr =>
      let input_filename := temp_name ++ extsep ++ pr.ext
      let fs1b := writeFile fs1 input_filename (encodeImg pr.result)
      match run_tesseract eng input_filename temp_name extension lang fs1b with
      | (.error e, fs2) => (.error e, fs2)
      | (.ok _, fs2) => (read_output temp_name extension fs2, fs2)

/-- `run_and_get_output` proper: create the temp file, run the body, and let
the `finally` clause clean up; a cleanup error replaces the body's outcome. -/
def run_and_get_output (eng : Engine) (canon : String → String)
    (encodeImg : PILImage → List Nat) (temp_name : String) (image : SaveInput)
    (extension : String) (lang : Option String) (fs : FS) :
    Except PyError String × FS :=
  let fs1 := writeFile fs temp_name []
  let body := request_body eng canon encodeImg temp_name image extension lang fs1
  match cleanup temp_name body.2 with
  | (some e, fsF) => (.error (.osError e), fsF)
  | (none, fsF) => (body.1, fsF)

/-- `image_to_string` (lines 158-160): `run_and_get_output(image, 'txt', lang)`. -/
def image_to_string (eng : Engine) (canon : String → String)
    (encodeImg : PILImage → List Nat) (temp_name : String) (image : SaveInput)
    (lang : Option String) (fs : FS) : Except PyError String × FS :=
  run_and_get_output eng canon encodeImg temp_name image "txt" lang fs

/-- `process_image` (lines 163-164): decode the named file via the imaging
library (`Image.open`, a parameter `openImg` of the model, which may raise)
and hand the decoded image to `image_to_string`. -/
def process_image (eng : Engine) (canon : String → String)
    (encodeImg : PILImage → List Nat) (openImg : String → Except PyError PILImage)
    (temp_name : String) (image_name : String) (lang_code : String) (fs : FS) :
    Except PyError String × FS :=
  match openImg image_name with
  | .error e => (.error e, fs)
  | .ok i => image_to_string eng canon encodeImg temp_name (.obj (.image i)) (some lang_code) fs

/-!  GUI event-loop model.  `image_regex` is the pattern `\S+.(png|jpg|jpeg)$`
(line 169), checked with `re.match`, i.e. anchored at the start of the string.
Its semantics: one or more non-whitespace characters, then any single
character other than a newline (the dot is an unescaped wildcard), then one of
the literal alternatives `png`, `jpg`, `jpeg` (case-sensitive), ending at the
end of the string or just before one trailing newline (`$`).  The matcher
below decides this by enumerating the possible end-of-match positions and the
three alternatives. -/

/-- Whether the candidate string `u` (already stripped of the optional
trailing newline that `$` may precede) is `a ++ [c] ++ w` with `a` a non-empty
run of non-whitespace characters and `c` any non-newline character. -/
def regexTailCheck (u : List Char) (w : List Char) : Bool :=
  w.isSuffixOf u &&
  (let pre := u.take (u.length - w.length)
   decide (2 ≤ pre.length) &&
   (match pre.getLast? with
    | some c => c ≠ '\n'
    | none => false) &&
   (pre.take (pre.length - 1)).all (fun c => !pyIsSpace c))

/-- Candidate strings the `$` anchor allows: the whole string, and the string
without its final character when that character is a newline. -/
def regexCandidates (l : List Char) : List (List Char) :=
  l :: (if l.getLast? = some '\n' then [l.dropLast] else [])

/-- `re.match('\S+.(png|jpg|jpeg)$', s)` viewed as a Boolean. -/
def image_regex_match (s : String) : Bool :=
  (regexCandidates s.data).any fun u =>
    [String.data "png", String.data "jpg", String.data "jpeg"].any (regexTailCheck u)

/-- What one iteration of the GUI loop does to the outside world. -/
inductive GuiOutcome where
  /-- `break`: the loop (and the program) ends normally. -/
  | exitLoop
  /-- `print(s)` reached the output pane and the loop continues. -/
  | printed (s : String) (fs : FS)
  /-- An exception escaped the loop body uncaught: the process terminates
  abnormally with this error. -/
  | crashed (e : PyError) (fs : FS)
deriving DecidableEq

/-- The Submit branch of the loop (lines 177-178): `data = process_image(...)`
followed by `print(data)` — with no `try`/`except`, so an error from
`process_image` escapes the loop. -/
def submit_recognize (eng : Engine) (canon : String → String)
    (encodeImg : PILImage → List Nat) (openImg : String → Except PyError PILImage)
    (temp_name : String) (file_path : String) (lang_code : String) (fs : FS) :
    GuiOutcome :=
  match process_image eng canon encodeImg openImg temp_name file_path lang_code fs with
  | (.ok data, fs') => .printed data fs'
  | (.error e, fs') => .crashed e fs'

/-- One iteration of the event loop (lines 167-180): `None`/`Exit` breaks;
`Submit` with a path matching `image_regex` invokes recognition; anything else
prints `File path is invalid`. -/
def event_step (eng : Engine) (canon : String → String)
    (encodeImg : PILImage → List Nat) (openImg : String → Except PyError PILImage)
    (temp_name : String) (event : Option String) (file_path : String)
    (rus_selected : Bool) (fs : FS) : GuiOutcome :=
  let lang_code := if rus_selected then "rus" else "eng"
  if event = none ∨ event = some "Exit" then .exitLoop
  else if event = some "Submit" ∧ image_regex_match file_path = true then
    submit_recognize eng canon encodeImg openImg temp_name file_path lang_code fs
  else .printed "File path is invalid" fs

/-!  Helper lemmas about the filesystem model and cleanup. -/

/-- A filesystem is benign for `t` when removing any of its `t`-prefixed
entries either succeeds or fails with `ENOENT` (nothing in it makes cleanup
propagate an error). -/
def benignFor (t : String) (fs : FS) : Prop :=
  ∀ f ∈ fs, globStar t f.name = true → f.removeErr = none ∨ f.removeErr = some ENOENT

theorem isPrefixOf_append_list (l1 l2 : List Char) : l1.isPrefixOf (l1 ++ l2) = true := by
  induction l1 with
  | nil => simp [List.isPrefixOf]
  | cons c cs ih => simp [List.isPrefixOf, ih]

theorem globStar_append (t r : String) : globStar t (t ++ r) = true := by
  unfold globStar
  rw [String.data_append]
  exact isPrefixOf_append_list t.data r.data

theorem append_extsep_ne (t e : String) : t ++ extsep ++ e ≠ t := by
  intro h
  have hd : (t ++ extsep ++ e).data = t.data := by rw [h]
  rw [String.data_append, String.data_append] at hd
  have hl := congrArg List.length hd
  simp [extsep, String.data] at hl

theorem lookupFS_writeFile_self (fs : FS) (n : String) (c : List Nat) :
    lookupFS (writeFile fs n c) n = some c := by
  induction fs with
  | nil => simp [writeFile, lookupFS]
  | cons f rest ih =>
    by_cases h : f.name = n
    · simp [writeFile, h, lookupFS]
    · simp [writeFile, h, lookupFS, ih]

theorem lookupFS_writeFile_ne (fs : FS) (n m : String) (c : List Nat) (h : m ≠ n) :
    lookupFS (writeFile fs n c) m = lookupFS fs m := by
  have h' : ¬n = m := fun hh => h hh.symm
  induction fs with
  | nil => simp [writeFile, lookupFS, h']
  | cons f rest ih =>
    by_cases hf : f.name = n
    · simp [writeFile, hf, lookupFS, h']
    · simp [writeFile, hf, lookupFS, ih]

theorem benignFor_writeFile (t : String) (fs : FS) (n : String) (c : List Nat)
    (h : benignFor t fs) : benignFor t (writeFile fs n c) := by
  induction fs with
  | nil =>
    intro f hf
    simp [writeFile] at hf
    subst hf
    intro _
    exact Or.inl rfl
  | cons g rest ih =>
    have hg := h g (by simp)
    have hrest : benignFor t rest := fun f hf => h f (by simp [hf])
    by_cases hn : g.name = n
    · intro f hf
      simp [writeFile, hn] at hf
      rcases hf with hf | hf
      · subst hf; intro _; exact Or.inl rfl
      · exact h f (by simp [hf])
    · intro f hf
      simp [writeFile, hn] at hf
      rcases hf with hf | hf
      · subst hf; exact hg
      · exact ih hrest f hf

theorem benignFor_writeAll (t : String) (ws : List (String × List Nat)) :
    ∀ fs : FS, benignFor t fs → benignFor t (writeAll fs ws) := by
  induction ws with
  | nil => intro fs h; exact h
  | cons w ws ih =>
    intro fs h
    exact ih (writeFile fs w.1 w.2) (benignFor_writeFile t fs w.1 w.2 h)

theorem removeMatching_benign (t : String) (fs : FS) (h : benignFor t fs) :
    removeMatching t fs = (none, fs.filter (fun f => !(globStar t f.name))) := by
  induction fs with
  | nil => rfl
  | cons f rest ih =>
    have hrest : benignFor t rest := fun g hg => h g (by simp [hg])
    by_cases hm : globStar t f.name = true
    · rcases h f (by simp) hm with he | he <;>
        simp [removeMatching, hm, he, ih hrest, ENOENT, List.filter]
    · simp [removeMatching, hm, ih hrest, List.filter]

theorem removeMatching_error (t : String) (fs : FS) (e : Nat)
    (h : (removeMatching t fs).1 = some e) :
    e ≠ ENOENT ∧ ∃ f ∈ fs, globStar t f.name = true ∧ f.removeErr = some e := by
  induction fs with
  | nil => simp [removeMatching] at h
  | cons f rest ih =>
    by_cases hm : globStar t f.name = true
    · match hre : f.removeErr with
      | none =>
        simp [removeMatching, hm, hre] at h
        rcases ih h with ⟨h1, g, hg, h2, h3⟩
        exact ⟨h1, g, by simp [hg], h2, h3⟩
      | some e' =>
        by_cases hENOENT : e' = ENOENT
        · simp [removeMatching, hm, hre, hENOENT] at h
          rcases ih h with ⟨h1, g, hg, h2, h3⟩
          exact ⟨h1, g, by simp [hg], h2, h3⟩
        · simp [removeMatching, hm, hre, hENOENT] at h
          subst h
          exact ⟨hENOENT, f, by simp, hm, hre⟩
    · simp [removeMatching, hm] at h
      rcases ih h with ⟨h1, g, hg, h2, h3⟩
      exact ⟨h1, g, by simp [hg], h2, h3⟩

theorem benignFor_run_tesseract (t : String) (eng : Engine)
    (a b c : String) (l : Option String) (fs : FS) (h : benignFor t fs) :
    benignFor t (run_tesseract eng a b c l fs).2 := by
  unfold run_tesseract
  cases heng : eng (build_cmd_args a b c l) with
  | osErr e =>
    by_cases he : e ≠ ENOENT <;> simp [he, h]
  | ran status errB written =>
    have hw := benignFor_writeAll t written fs h
    by_cases hs : status ≠ 0
    · cases hge : get_errors errB with
      | error pe => simp [hs, hge, hw]
      | ok msg => simp [hs, hge, hw]
    · simp [hs, hw]

theorem benignFor_request_body (t : String) (eng : Engine) (canon : String → String)
    (enc : PILImage → List Nat) (image : SaveInput) (ext : String)
    (lang : Option String) (fs1 : FS) (h : benignFor t fs1) :
    benignFor t (request_body eng canon enc t image ext lang fs1).2 := by
  unfold request_body
  cases image with
  | pathStr s =>
    dsimp only
    rcases hx : run_tesseract eng (canon s) t ext lang fs1 with ⟨r, fs2⟩
    have hrt := benignFor_run_tesseract t eng (canon s) t ext lang fs1 h
    rw [hx] at hrt
    cases r with
    | error e => exact hrt
    | ok u => exact hrt
  | obj p =>
    dsimp only
    cases hp : prepare p with
    | error e => exact h
    | ok pr =>
      dsimp only
      have h1b := benignFor_writeFile t fs1 (t ++ extsep ++ pr.ext) (enc pr.result) h
      rcases hx : run_tesseract eng (t ++ extsep ++ pr.ext) t ext lang
          (writeFile fs1 (t ++ extsep ++ pr.ext) (enc pr.result)) with ⟨r, fs2⟩
      have hrt := benignFor_run_tesseract t eng (t ++ extsep ++ pr.ext) t ext lang
        (writeFile fs1 (t ++ extsep ++ pr.ext) (enc pr.result)) h1b
      rw [hx] at hrt
      cases r with
      | error e => exact hrt
      | ok u => exact hrt

theorem prepare_image_ok (i : PILImage) : ∃ pr, prepare (.image i) = .ok pr := by
  unfold prepare
  by_cases h : i.hasAlpha = true <;> simp [h]

theorem benignFor_of_fresh (t : String) (fs : FS)
    (h : ∀ f ∈ fs, globStar t f.name = false) : benignFor t fs := by
  intro f hf hg
  rw [h f hf] at hg
  cases hg

theorem run_and_get_output_eq (eng : Engine) (canon : String → String)
    (enc : PILImage → List Nat) (t : String) (image : SaveInput) (ext : String)
    (lang : Option String) (fs : FS) (ht : t ≠ "") (hfs : benignFor t fs) :
    run_and_get_output eng canon enc t image ext lang fs =
      ((request_body eng canon enc t image ext lang (writeFile fs t [])).1,
       (request_body eng canon enc t image ext lang (writeFile fs t [])).2.filter
         (fun f => !(globStar t f.name))) := by
  have hb := benignFor_writeFile t fs t [] hfs
  have hbody := benignFor_request_body t eng canon enc image ext lang (writeFile fs t []) hb
  unfold run_and_get_output
  dsimp only
  unfold cleanup
  rw [if_neg ht, removeMatching_benign t _ hbody]

theorem utf8_hello : utf8Decode helloWorldBytes = some "hello world".data := by decide

theorem mk_hello : String.mk "hello world".data = "hello world" := rfl

/-- Claim C1: with a mocked engine that exits with status 0 and has written
the text `hello world` (as UTF-8 bytes) to the file `<temp base name>.txt`,
`image_to_string` — which calls `run_and_get_output` with extension `txt` —
returns exactly the string `hello world`, i.e. the bytes of
`<output_base>.txt` decoded as UTF-8. -/
theorem claim_c1 (canon : String → String) (enc : PILImage → List Nat)
    (temp_name : String) (i : PILImage) (lang : Option String) (fs : FS)
    (errB : List Nat) (ht : temp_name ≠ "")
    (hfresh : ∀ f ∈ fs, globStar temp_name f.name = false) :
    (image_to_string
        (fun _ => .ran 0 errB [(temp_name ++ extsep ++ "txt", helloWorldBytes)])
        canon enc temp_name (.obj (.image i)) lang fs).1 = .ok "hello world" := by
  have hfs := benignFor_of_fresh temp_name fs hfresh
  obtain ⟨pr, hp⟩ := prepare_image_ok i
  rw [image_to_string, run_and_get_output_eq _ _ _ _ _ _ _ _ ht hfs]
  dsimp only
  unfold request_body
  dsimp only
  rw [hp]
  dsimp only
  unfold run_tesseract
  dsimp only
  rw [if_neg (by decide : ¬(0 : Int) ≠ 0)]
  dsimp only [writeAll]
  unfold read_output
  dsimp only
  rw [lookupFS_writeFile_self]
  dsimp only
  rw [utf8_hello]

/-- A concrete 1x1 opaque image used to instantiate the theorems. -/
def sampleImage : PILImage :=
  { width := 1, height := 1, hasAlpha := false, px := fun _ _ _ => 0
    format := some "PNG" }

/-- Witness for C1 at a concrete mocked engine, temp name and image. -/
theorem claim_c1_witness :
    (image_to_string
        (fun _ => .ran 0 [] [("tess_w" ++ extsep ++ "txt", helloWorldBytes)])
        id (fun _ => []) "tess_w" (.obj (.image sampleImage)) (some "eng") []).1
      = .ok "hello world" :=
  claim_c1 id (fun _ => []) "tess_w" sampleImage (some "eng") [] []
    (by decide) (by simp)

/-- Claim C2: for a recognition request, whether it returns normally or raises
at any stage, no file whose name begins with the generated temp base name
remains afterwards (stated under the hypothesis that no individual removal
fails with an error other than ENOENT — part 3); and during cleanup a
per-file deletion failure is swallowed exactly when its OS error code is
ENOENT: cleanup never propagates ENOENT, and any propagated error is the
non-ENOENT failure of a removal it attempted (parts 1 and 2). -/
theorem claim_c2 (temp_name : String) (fs : FS) (ht : temp_name ≠ "") :
    (benignFor temp_name fs →
      (cleanup temp_name fs).1 = none ∧
      ∀ f ∈ (cleanup temp_name fs).2, globStar temp_name f.name = false) ∧
    (∀ e, (cleanup temp_name fs).1 = some e →
      e ≠ ENOENT ∧ ∃ f ∈ fs, globStar temp_name f.name = true ∧ f.removeErr = some e) ∧
    (∀ (eng : Engine) (canon : String → String) (enc : PILImage → List Nat)
        (image : SaveInput) (ext : String) (lang : Option String),
      benignFor temp_name fs →
      ∀ f ∈ (run_and_get_output eng canon enc temp_name image ext lang fs).2,
        globStar temp_name f.name = false) := by
  refine ⟨fun hb => ?_, fun e he => ?_, fun eng canon enc image ext lang hb f hf => ?_⟩
  · rw [cleanup, if_neg ht, removeMatching_benign temp_name fs hb]
    refine ⟨rfl, fun f hf => ?_⟩
    have := List.mem_filter.mp hf
    simpa using this.2
  · rw [cleanup, if_neg ht] at he
    exact removeMatching_error temp_name fs e he
  · rw [run_and_get_output_eq eng canon enc temp_name image ext lang fs ht hb] at hf
    have := List.mem_filter.mp hf
    simpa using this.2

/-- Witness for C2 at a concrete temp name and filesystem: one stale matching
temp file removable normally, one matching entry whose removal reports ENOENT,
and one unrelated entry that cleanup must not touch. -/
theorem claim_c2_witness :
    (benignFor "tess_w2" [⟨"tess_w2.txt", [], none⟩, ⟨"tess_w2.log", [], some ENOENT⟩,
        ⟨"other.txt", [], some 13⟩] →
      (cleanup "tess_w2" [⟨"tess_w2.txt", [], none⟩, ⟨"tess_w2.log", [], some ENOENT⟩,
        ⟨"other.txt", [], some 13⟩]).1 = none ∧
      ∀ f ∈ (cleanup "tess_w2" [⟨"tess_w2.txt", [], none⟩, ⟨"tess_w2.log", [], some ENOENT⟩,
        ⟨"other.txt", [], some 13⟩]).2, globStar "tess_w2" f.name = false) ∧
    (∀ e, (cleanup "tess_w2" [⟨"tess_w2.txt", [], none⟩, ⟨"tess_w2.log", [], some ENOENT⟩,
        ⟨"other.txt", [], some 13⟩]).1 = some e →
      e ≠ ENOENT ∧ ∃ f ∈ ([⟨"tess_w2.txt", [], none⟩, ⟨"tess_w2.log", [], some ENOENT⟩,
        ⟨"other.txt", [], some 13⟩] : FS), globStar "tess_w2" f.name = true ∧
        f.removeErr = some e) ∧
    (∀ (eng : Engine) (canon : String → String) (enc : PILImage → List Nat)
        (image : SaveInput) (ext : String) (lang : Option String),
      benignFor "tess_w2" [⟨"tess_w2.txt", [], none⟩, ⟨"tess_w2.log", [], some ENOENT⟩,
        ⟨"other.txt", [], some 13⟩] →
      ∀ f ∈ (run_and_get_output eng canon enc "tess_w2" image ext lang
        [⟨"tess_w2.txt", [], none⟩, ⟨"tess_w2.log", [], some ENOENT⟩,
         ⟨"other.txt", [], some 13⟩]).2,
        globStar "tess_w2" f.name = false) :=
  claim_c2 "tess_w2" [⟨"tess_w2.txt", [], none⟩, ⟨"tess_w2.log", [], some ENOENT⟩,
    ⟨"other.txt", [], some 13⟩] (by decide)

deriving instance DecidableEq for Except

theorem get_errors_bad_image : get_errors errBadImageBytes = .ok "Error: bad image" := by
  decide

theorem get_errors_nbsp : get_errors nbspErrBytes = .ok "Error: bad image" := by
  decide

/-- Claim C3: when the engine launches but exits with a non-zero status,
`run_tesseract` raises `TesseractError` carrying that exit status and a
message equal to the lines of the child's standard-error output joined with
single spaces and stripped of surrounding (Unicode) whitespace; in
particular, for exit status 2 and stderr `Error: bad image`, it carries
status 2 and message `Error: bad image` — also when the stderr text begins
with a no-break space, which `str.strip()` removes. -/
theorem claim_c3 (input base extension : String) (lang : Option String) (fs : FS)
    (status : Int) (errB : List Nat) (written : List (String × List Nat))
    (cs : List Char) (hs : status ≠ 0) (hd : utf8Decode errB = some cs) :
    (run_tesseract (fun _ => .ran status errB written) input base extension lang fs).1
      = .error (.tesseractError status
          (pyStrip (String.intercalate " " (pySplitlines (String.mk cs))))) ∧
    (run_tesseract (fun _ => .ran 2 errBadImageBytes written) input base extension lang fs).1
      = .error (.tesseractError 2 "Error: bad image") ∧
    (run_tesseract (fun _ => .ran 2 nbspErrBytes written) input base extension lang fs).1
      = .error (.tesseractError 2 "Error: bad image") := by
  refine ⟨?_, ?_, ?_⟩
  · unfold run_tesseract
    dsimp only
    rw [if_pos hs]
    unfold get_errors
    rw [hd]
  · unfold run_tesseract
    dsimp only
    rw [if_pos (by decide : (2 : Int) ≠ 0), get_errors_bad_image]
  · unfold run_tesseract
    dsimp only
    rw [if_pos (by decide : (2 : Int) ≠ 0), get_errors_nbsp]

/-- Witness for C3 at a concrete command, status 2 and stderr `Error: bad image`. -/
theorem claim_c3_witness :
    (run_tesseract (fun _ => .ran 2 errBadImageBytes []) "a.png" "tess_w3" "txt" none []).1
      = .error (.tesseractError 2
          (pyStrip (String.intercalate " " (pySplitlines (String.mk "Error: bad image".data))))) ∧
    (run_tesseract (fun _ => .ran 2 errBadImageBytes []) "a.png" "tess_w3" "txt" none []).1
      = .error (.tesseractError 2 "Error: bad image") ∧
    (run_tesseract (fun _ => .ran 2 nbspErrBytes []) "a.png" "tess_w3" "txt" none []).1
      = .error (.tesseractError 2 "Error: bad image") :=
  claim_c3 "a.png" "tess_w3" "txt" none [] 2 errBadImageBytes [] "Error: bad image".data
    (by decide) (by decide)

/-- Claim C4: a launch `OSError` with code ENOENT becomes
`TesseractNotFoundError`, whose message names the configured executable
(`tesseract_cmd`) and carries a remediation hint; a launch `OSError` with any
other code propagates unchanged. -/
theorem claim_c4 (input base extension : String) (lang : Option String) (fs : FS)
    (errno : Nat) :
    (errno = ENOENT →
      (run_tesseract (fun _ => .osErr errno) input base extension lang fs).1
        = .error (.notFound tesseract_not_found_msg) ∧
      containsSeq tesseract_cmd.data tesseract_not_found_msg.data = true ∧
      containsSeq "See README file for more information".data
        tesseract_not_found_msg.data = true) ∧
    (errno ≠ ENOENT →
      (run_tesseract (fun _ => .osErr errno) input base extension lang fs).1
        = .error (.osError errno)) := by
  constructor
  · intro he
    refine ⟨?_, by decide, by decide⟩
    unfold run_tesseract
    dsimp only
    rw [if_neg (by simp [he])]
  · intro he
    unfold run_tesseract
    dsimp only
    rw [if_pos he]

/-- Witness for C4: `errno = ENOENT` on one side and `errno = 13` (EACCES) on
the other each instantiate their implication. -/
theorem claim_c4_witness :
    ((run_tesseract (fun _ => .osErr ENOENT) "a.png" "tess_w4" "txt" none []).1
        = .error (.notFound tesseract_not_found_msg) ∧
      containsSeq tesseract_cmd.data tesseract_not_found_msg.data = true ∧
      containsSeq "See README file for more information".data
        tesseract_not_found_msg.data = true) ∧
    (run_tesseract (fun _ => .osErr 13) "a.png" "tess_w4" "txt" none []).1
      = .error (.osError 13) :=
  ⟨(claim_c4 "a.png" "tess_w4" "txt" none [] ENOENT).1 rfl,
   (claim_c4 "a.png" "tess_w4" "txt" none [] 13).2 (by decide)⟩

/-- Claim C8: `run_tesseract` builds the child command line in exactly the
order: engine executable name, input file path, output base path, then the two
tokens `-l` and the language code if and only if the language argument is not
`None`, then the output-format token if and only if the extension argument is
non-empty. -/
theorem claim_c8 (input_filename output_filename_base extension : String)
    (lang : Option String) :
    build_cmd_args input_filename output_filename_base extension lang
      = [tesseract_cmd, input_filename, output_filename_base]
        ++ (match lang with | some l => ["-l", l] | none => [])
        ++ (if extension = "" then [] else [extension]) := by
  unfold build_cmd_args
  cases lang <;> by_cases he : extension = "" <;> simp [he]

theorem lookupFS_none_of_ne (fs : FS) (n : String)
    (h : ∀ f ∈ fs, f.name ≠ n) : lookupFS fs n = none := by
  induction fs with
  | nil => rfl
  | cons f rest ih =>
    rw [lookupFS, if_neg (h f (by simp))]
    exact ih fun g hg => h g (by simp [hg])

/-- Claim C9: after a successful engine invocation, if the engine did not
produce the expected output file `<temp base name> + extsep + extension` the
read fails with `FileNotFoundError`, and if the produced bytes are not valid
UTF-8 it fails with `UnicodeDecodeError`; in both cases `run_and_get_output`
returns that error without retrying (its result is exactly the single
attempt's error). -/
theorem claim_c9 (canon : String → String) (enc : PILImage → List Nat)
    (temp_name s extension : String) (lang : Option String) (fs : FS)
    (errB badBytes : List Nat) (ht : temp_name ≠ "")
    (hfresh : ∀ f ∈ fs, globStar temp_name f.name = false)
    (hbad : utf8Decode badBytes = none) :
    (run_and_get_output (fun _ => .ran 0 errB []) canon enc temp_name
        (.pathStr s) extension lang fs).1
      = .error (.fileNotFound (temp_name ++ extsep ++ extension)) ∧
    (run_and_get_output (fun _ => .ran 0 errB [(temp_name ++ extsep ++ extension, badBytes)])
        canon enc temp_name (.pathStr s) extension lang fs).1
      = .error .unicodeDecodeError := by
  have hfs := benignFor_of_fresh temp_name fs hfresh
  have hne : temp_name ++ extsep ++ extension ≠ temp_name :=
    append_extsep_ne temp_name extension
  constructor
  · rw [run_and_get_output_eq _ _ _ _ _ _ _ _ ht hfs]
    dsimp only
    unfold request_body
    dsimp only
    unfold run_tesseract
    dsimp only
    rw [if_neg (by decide : ¬(0 : Int) ≠ 0)]
    dsimp only [writeAll]
    unfold read_output
    dsimp only
    rw [lookupFS_writeFile_ne fs temp_name (temp_name ++ extsep ++ extension) [] hne]
    rw [lookupFS_none_of_ne]
    intro f hf heq
    have hg := hfresh f hf
    rw [heq] at hg
    rw [show temp_name ++ extsep ++ extension = temp_name ++ (extsep ++ extension) from
      (String.append_assoc temp_name extsep extension), globStar_append] at hg
    cases hg
  · rw [run_and_get_output_eq _ _ _ _ _ _ _ _ ht hfs]
    dsimp only
    unfold request_body
    dsimp only
    unfold run_tesseract
    dsimp only
    rw [if_neg (by decide : ¬(0 : Int) ≠ 0)]
    dsimp only [writeAll]
    unfold read_output
    dsimp only
    rw [lookupFS_writeFile_self]
    dsimp only
    rw [hbad]

/-- Witness for C9 at a concrete temp name, path and invalid byte 0xFF. -/
theorem claim_c9_witness :
    ((run_and_get_output (fun _ => .ran 0 [] []) id (fun _ => []) "tess_w9"
        (.pathStr "a.png") "txt" none []).1
      = .error (.fileNotFound ("tess_w9" ++ extsep ++ "txt")) ∧
    (run_and_get_output (fun _ => .ran 0 [] [("tess_w9" ++ extsep ++ "txt", [255])])
        id (fun _ => []) "tess_w9" (.pathStr "a.png") "txt" none []).1
      = .error .unicodeDecodeError) :=
  claim_c9 id (fun _ => []) "tess_w9" "a.png" "txt" none [] [] [255]
    (by decide) (by simp) (by decide)

theorem pilMulDiv255_zero (a : Nat) : pilMulDiv255 a 0 = 0 := by
  simp [pilMulDiv255]

set_option maxRecDepth 4096 in
theorem pilMulDiv255_full : ∀ a, a ≤ 255 → pilMulDiv255 a 255 = a := by decide

theorem pilBlend_opaque (v : Nat) (hv : v ≤ 255) : pilBlend 255 255 v = v := by
  unfold pilBlend
  rw [Nat.sub_self, pilMulDiv255_zero, pilMulDiv255_full v hv, Nat.zero_add]

/-- Claim C7: for every decoded image carrying an alpha channel, `prepare`
returns a new image with no alpha band and the original's dimensions, whose
samples are the original's composited (by PIL's 8-bit blend) at its alpha
values over an opaque white background — in particular equal to the original
wherever the alpha is fully opaque — and the caller's original image object is
left unmutated. -/
theorem claim_c7 (i : PILImage) (ha : i.hasAlpha = true)
    (hpx : ∀ x y b, i.px x y b ≤ 255) :
    ∃ pr, prepare (.image i) = .ok pr ∧
      pr.result.hasAlpha = false ∧
      pr.result.width = i.width ∧ pr.result.height = i.height ∧
      (∀ x y b, pr.result.px x y b = pilBlend (i.px x y 'A') 255 (i.px x y b)) ∧
      (∀ x y b, i.px x y 'A' = 255 → pr.result.px x y b = i.px x y b) ∧
      pr.callerAfter = i := by
  unfold prepare
  simp only [ha, if_true]
  refine ⟨_, rfl, rfl, rfl, rfl, fun x y b => rfl, fun x y b hop => ?_, rfl⟩
  show pilBlend (i.px x y 'A') 255 (i.px x y b) = i.px x y b
  rw [hop]
  exact pilBlend_opaque (i.px x y b) (hpx x y b)

/-- A concrete 1x1 image with an alpha band. -/
def sampleAlphaImage : PILImage :=
  { width := 1, height := 1, hasAlpha := true, px := fun _ _ _ => 200
    format := some "PNG" }

/-- Witness for C7 at a concrete image with an alpha channel. -/
theorem claim_c7_witness :
    ∃ pr, prepare (.image sampleAlphaImage) = .ok pr ∧
      pr.result.hasAlpha = false ∧
      pr.result.width = sampleAlphaImage.width ∧
      pr.result.height = sampleAlphaImage.height ∧
      (∀ x y b, pr.result.px x y b
        = pilBlend (sampleAlphaImage.px x y 'A') 255 (sampleAlphaImage.px x y b)) ∧
      (∀ x y b, sampleAlphaImage.px x y 'A' = 255 →
        pr.result.px x y b = sampleAlphaImage.px x y b) ∧
      pr.callerAfter = sampleAlphaImage :=
  claim_c7 sampleAlphaImage rfl (fun x y b => (by decide : (200 : Nat) ≤ 255))

/-- Claim C10: for every decoded image without an alpha channel, `prepare`
returns the very same (updated) image object it was given — the caller's image
and the result coincide after the call — mutated only by setting its `format`
attribute to the derived tag: `PNG` when the image had no declared (truthy)
source format, otherwise the declared format itself. -/
theorem claim_c10 (i : PILImage) (ha : i.hasAlpha = false) :
    ∃ pr, prepare (.image i) = .ok pr ∧
      pr.callerAfter = pr.result ∧
      pr.result.px = i.px ∧ pr.result.width = i.width ∧
      pr.result.height = i.height ∧ pr.result.hasAlpha = false ∧
      pr.result.format = some pr.ext ∧
      ((i.format = none ∨ i.format = some "") → pr.ext = "PNG") ∧
      (∀ f, i.format = some f → f ≠ "" → pr.ext = f) := by
  unfold prepare
  simp only [ha, Bool.false_eq_true, if_false]
  refine ⟨_, rfl, rfl, rfl, rfl, rfl, rfl, rfl, fun hf => ?_, fun f hf hne => ?_⟩
  · show (if pyFalsyFmt i.format then "PNG" else i.format.getD "") = "PNG"
    rcases hf with hf | hf <;> rw [hf] <;> rfl
  · show (if pyFalsyFmt i.format then "PNG" else i.format.getD "") = f
    rw [hf]
    rw [if_neg (by simp [pyFalsyFmt, hne])]
    rfl

/-- Witness for C10 at a concrete opaque image with a declared format. -/
theorem claim_c10_witness :
    ∃ pr, prepare (.image sampleImage) = .ok pr ∧
      pr.callerAfter = pr.result ∧
      pr.result.px = sampleImage.px ∧ pr.result.width = sampleImage.width ∧
      pr.result.height = sampleImage.height ∧ pr.result.hasAlpha = false ∧
      pr.result.format = some pr.ext ∧
      ((sampleImage.format = none ∨ sampleImage.format = some "") → pr.ext = "PNG") ∧
      (∀ f, sampleImage.format = some f → f ≠ "" → pr.ext = f) :=
  claim_c10 sampleImage rfl

/-- Claim C5: on a Submit event, recognition is invoked exactly when the
entered file path matches the case-sensitive pattern `\S+.(png|jpg|jpeg)$`
anchored at the end (the code's suffix pattern for `.png`, `.jpg`, `.jpeg`);
for every path that does not match — such as `notes.txt`, or a path whose
leading run contains Unicode whitespace such as a no-break space (rejected by
`\S+`) — the GUI prints the invalid-file-path message, no recognition attempt
occurs, and the filesystem is left untouched (no temp file is created). -/
theorem claim_c5 (eng : Engine) (canon : String → String)
    (enc : PILImage → List Nat) (openImg : String → Except PyError PILImage)
    (temp_name : String) (path : String) (rus : Bool) (fs : FS) :
    (image_regex_match path = false →
      event_step eng canon enc openImg temp_name (some "Submit") path rus fs
        = .printed "File path is invalid" fs) ∧
    (image_regex_match path = true →
      event_step eng canon enc openImg temp_name (some "Submit") path rus fs
        = submit_recognize eng canon enc openImg temp_name path
            (if rus then "rus" else "eng") fs) ∧
    image_regex_match "notes.txt" = false ∧
    image_regex_match "a.png" = true ∧ image_regex_match "b.jpg" = true ∧
    image_regex_match "c.jpeg" = true ∧ image_regex_match "a.PNG" = false ∧
    image_regex_match "\u00A0x.png" = false := by
  refine ⟨fun hm => ?_, fun hm => ?_, by decide, by decide, by decide, by decide,
    by decide, by decide⟩
  · unfold event_step
    dsimp only
    rw [if_neg (by simp), if_neg (by simp [hm])]
  · unfold event_step
    dsimp only
    rw [if_neg (by simp), if_pos ⟨rfl, hm⟩]

/-- Witness for C5 at a concrete engine and the paths `notes.txt` / `a.png`. -/
theorem claim_c5_witness :
    ((image_regex_match "notes.txt" = false →
      event_step (fun _ => .osErr ENOENT) id (fun _ => []) (fun _ => .ok sampleImage)
          "tess_w5" (some "Submit") "notes.txt" true []
        = .printed "File path is invalid" []) ∧
    (image_regex_match "notes.txt" = true →
      event_step (fun _ => .osErr ENOENT) id (fun _ => []) (fun _ => .ok sampleImage)
          "tess_w5" (some "Submit") "notes.txt" true []
        = submit_recognize (fun _ => .osErr ENOENT) id (fun _ => [])
            (fun _ => .ok sampleImage) "tess_w5" "notes.txt"
            (if true then "rus" else "eng") []) ∧
    image_regex_match "notes.txt" = false ∧
    image_regex_match "a.png" = true ∧ image_regex_match "b.jpg" = true ∧
    image_regex_match "c.jpeg" = true ∧ image_regex_match "a.PNG" = false ∧
    image_regex_match "\u00A0x.png" = false) :=
  claim_c5 (fun _ => .osErr ENOENT) id (fun _ => []) (fun _ => .ok sampleImage)
    "tess_w5" "notes.txt" true []

/-- Counterexample to claim C6 as stated: with the engine executable missing
(`Popen` raising ENOENT) and a valid path submitted, the loop iteration does
not print the error's text and continue — the exception escapes the loop body
(which has no handler) and the process crashes with it. -/
theorem claim_c6_counterexample :
    event_step (fun _ => .osErr ENOENT) id (fun _ => []) (fun _ => .ok sampleImage)
      "tess_t" (some "Submit") "a.png" true []
      = .crashed (.notFound tesseract_not_found_msg) [] := by decide

/-- Claim C6 amended: when any stage of a recognition request raises an error,
the error is not caught by the GUI layer — the event loop has no handler — so
the Submit iteration ends with the error escaping uncaught (modelled as
`crashed`, terminating the process) rather than printing the error text. -/
theorem claim_c6_amended (eng : Engine) (canon : String → String)
    (enc : PILImage → List Nat) (openImg : String → Except PyError PILImage)
    (temp_name path : String) (rus : Bool) (fs fs' : FS) (e : PyError)
    (hm : image_regex_match path = true)
    (hp : process_image eng canon enc openImg temp_name path
        (if rus then "rus" else "eng") fs = (.error e, fs')) :
    event_step eng canon enc openImg temp_name (some "Submit") path rus fs
      = .crashed e fs' := by
  unfold event_step
  dsimp only
  rw [if_neg (by simp), if_pos ⟨rfl, hm⟩]
  unfold submit_recognize
  rw [hp]

/-- Witness for the amended C6 at the counterexample's concrete input. -/
theorem claim_c6_amended_witness :
    event_step (fun _ => .osErr ENOENT) id (fun _ => []) (fun _ => .ok sampleImage)
      "tess_t2" (some "Submit") "a.png" true []
      = .crashed (.notFound tesseract_not_found_msg) [] :=
  claim_c6_amended (fun _ => .osErr ENOENT) id (fun _ => []) (fun _ => .ok sampleImage)
    "tess_t2" "a.png" true [] [] (.notFound tesseract_not_found_msg)
    (by decide) (by decide)
